import Mathlib

/-!
Verification of the Adafruit_BQ25798 register-level driver
(`src/Adafruit_BQ25798.cpp`).

The device's register space is modelled as a map from register address to
byte value.  Each accessor of the C++ facade is translated into a pure
function on that state; setters return the success flag together with the
state after the call.  The C++ `float` arithmetic of the scaling formulas is
modelled exactly over `ℚ` (decimal literals such as `0.25` denote the exact
rational).  The generic read-modify-write bit-field primitive lives in the
external Adafruit_BusIO library and is modelled from the spec's contract
for it (see `bitsRead` / `bitsWrite`), as are the numeric register
addresses and enumerator bounds that the library header declares.
-/

namespace BQ25798

/-- The device register space: one byte (kept reduced mod 256 on access)
per register address. -/
def Regs : Type := Nat → Nat

/-- Read one byte at a register address. -/
def readReg8 (s : Regs) (addr : Nat) : Nat := s addr % 256

/-- Write one byte at a register address. -/
def writeReg8 (s : Regs) (addr v : Nat) : Regs :=
  fun a => if a = addr then v % 256 else s a

/-- Read a two-byte register, most-significant byte first: the byte at
`addr` is the MSB, the byte at `addr + 1` the LSB. -/
def readReg16 (s : Regs) (addr : Nat) : Nat :=
  readReg8 s addr * 256 + readReg8 s (addr + 1)

/-- Write a two-byte register, most-significant byte first. -/
def writeReg16 (s : Regs) (addr v : Nat) : Regs :=
  writeReg8 (writeReg8 s addr (v / 256)) (addr + 1) v

/-- Modelled from the spec: the read contract of the external bus
RegisterBits primitive (spec §4.2) — extract the `width`-bit field at
`offset` of a register value by shift and mask. -/
def bitsRead (regVal width offset : Nat) : Nat :=
  regVal / 2 ^ offset % 2 ^ width

/-- Modelled from the spec: the write contract of the external bus
RegisterBits primitive (spec §4.2) — clear exactly the target bits of the
register value and merge in the new field value shifted into position,
leaving all other bits unchanged.  Expressed arithmetically: the bits
above the field, the new field value, and the bits below the field are
reassembled. -/
def bitsWrite (regVal width offset v : Nat) : Nat :=
  (regVal / 2 ^ (offset + width) * 2 ^ width + v % 2 ^ width) * 2 ^ offset
    + regVal % 2 ^ offset

/-- Modelled from the spec: register address of the minimal-system-voltage
register; the numeric register map is chip-datasheet defined (spec §6) and
declared in the library header. -/
def BQ25798_REG_MINIMAL_SYSTEM_VOLTAGE : Nat := 0x00

/-- Modelled from the spec: address of the two-byte charge-voltage-limit
register. -/
def BQ25798_REG_CHARGE_VOLTAGE_LIMIT : Nat := 0x01

/-- Modelled from the spec: address of the two-byte charge-current-limit
register. -/
def BQ25798_REG_CHARGE_CURRENT_LIMIT : Nat := 0x03

/-- Modelled from the spec: address of the input-voltage-limit register. -/
def BQ25798_REG_INPUT_VOLTAGE_LIMIT : Nat := 0x05

/-- Modelled from the spec: address of the precharge-control register. -/
def BQ25798_REG_PRECHARGE_CONTROL : Nat := 0x08

/-- Modelled from the spec: address of the termination-control register
(holds the self-clearing register-reset bit). -/
def BQ25798_REG_TERMINATION_CONTROL : Nat := 0x09

/-- Modelled from the spec: address of the two-byte OTG-regulation-voltage
register. -/
def BQ25798_REG_VOTG_REGULATION : Nat := 0x0B

/-- Modelled from the spec: address of the charger-control-1 register. -/
def BQ25798_REG_CHARGER_CONTROL_1 : Nat := 0x10

/-- Modelled from the spec: address of the charger-control-3 register. -/
def BQ25798_REG_CHARGER_CONTROL_3 : Nat := 0x12

/-- Modelled from the spec: address of the charger-control-4 register. -/
def BQ25798_REG_CHARGER_CONTROL_4 : Nat := 0x13

/-- Modelled from the spec: address of the MPPT-control register. -/
def BQ25798_REG_MPPT_CONTROL : Nat := 0x15

/-- Modelled from the spec: address of the part-information register. -/
def BQ25798_REG_PART_INFORMATION : Nat := 0x48

/-- Truncation of a rational to an unsigned machine integer, modelling the
C float-to-unsigned cast of the setters.  The cast truncates toward zero;
every setter applies it only after its range guard, whose lower bound makes
the operand nonnegative, so truncation coincides with the floor. -/
def truncQ (q : ℚ) : Nat := (⌊q⌋).toNat

/-- `Adafruit_BQ25798::getMinSystemV` (lines 84-94): 6-bit field at offset 0
of the minimal-system-voltage register, value `raw * 0.25 + 2.5` volts. -/
def getMinSystemV (s : Regs) : ℚ :=
  (bitsRead (readReg8 s BQ25798_REG_MINIMAL_SYSTEM_VOLTAGE) 6 0 : ℚ) * 0.25 + 2.5

/-- Raw-value conversion of `setMinSystemV`: cast of `(voltage - 2.5) / 0.25`
followed by the clamp to the 6-bit range (lines 106-112). -/
def setMinSystemV_raw (voltage : ℚ) : Nat :=
  let reg_value := truncQ ((voltage - 2.5) / 0.25)
  if reg_value > 63 then 63 else reg_value

/-- `Adafruit_BQ25798::setMinSystemV` (lines 101-122): guard
`2.5 ≤ voltage ≤ 16.0`, then write the converted raw value to the 6-bit
field at offset 0 of the minimal-system-voltage register. -/
def setMinSystemV (s : Regs) (voltage : ℚ) : Bool × Regs :=
  if voltage < 2.5 ∨ voltage > 16.0 then (false, s)
  else
    (true, writeReg8 s BQ25798_REG_MINIMAL_SYSTEM_VOLTAGE
      (bitsWrite (readReg8 s BQ25798_REG_MINIMAL_SYSTEM_VOLTAGE) 6 0
        (setMinSystemV_raw voltage)))

/-- `Adafruit_BQ25798::getChargeLimitV` (lines 128-138): 11-bit field at
offset 0 of the two-byte charge-voltage-limit register, value `raw * 0.01`
volts. -/
def getChargeLimitV (s : Regs) : ℚ :=
  (bitsRead (readReg16 s BQ25798_REG_CHARGE_VOLTAGE_LIMIT) 11 0 : ℚ) * 0.01

/-- Raw-value conversion of `setChargeLimitV`: cast of `voltage / 0.01`
followed by the clamp to the 11-bit range (lines 150-155). -/
def setChargeLimitV_raw (voltage : ℚ) : Nat :=
  let reg_value := truncQ (voltage / 0.01)
  if reg_value > 2047 then 2047 else reg_value

/-- `Adafruit_BQ25798::setChargeLimitV` (lines 145-166): guard
`3.0 ≤ voltage ≤ 18.8`, then write the converted raw value to the 11-bit
field at offset 0 of the two-byte charge-voltage-limit register. -/
def setChargeLimitV (s : Regs) (voltage : ℚ) : Bool × Regs :=
  if voltage < 3.0 ∨ voltage > 18.8 then (false, s)
  else
    (true, writeReg16 s BQ25798_REG_CHARGE_VOLTAGE_LIMIT
      (bitsWrite (readReg16 s BQ25798_REG_CHARGE_VOLTAGE_LIMIT) 11 0
        (setChargeLimitV_raw voltage)))

/-- `Adafruit_BQ25798::getChargeLimitA` (lines 172-182): 9-bit field at
offset 0 of the two-byte charge-current-limit register, value `raw * 0.01`
amps. -/
def getChargeLimitA (s : Regs) : ℚ :=
  (bitsRead (readReg16 s BQ25798_REG_CHARGE_CURRENT_LIMIT) 9 0 : ℚ) * 0.01

/-- Raw-value conversion of `setChargeLimitA`: cast of `current / 0.01`
followed by the clamp to the 9-bit range (lines 194-199). -/
def setChargeLimitA_raw (current : ℚ) : Nat :=
  let reg_value := truncQ (current / 0.01)
  if reg_value > 511 then 511 else reg_value

/-- `Adafruit_BQ25798::setChargeLimitA` (lines 189-210): guard
`0.05 ≤ current ≤ 5.0`, then write the converted raw value to the 9-bit
field at offset 0 of the two-byte charge-current-limit register. -/
def setChargeLimitA (s : Regs) (current : ℚ) : Bool × Regs :=
  if current < 0.05 ∨ current > 5.0 then (false, s)
  else
    (true, writeReg16 s BQ25798_REG_CHARGE_CURRENT_LIMIT
      (bitsWrite (readReg16 s BQ25798_REG_CHARGE_CURRENT_LIMIT) 9 0
        (setChargeLimitA_raw current)))

/-- `Adafruit_BQ25798::getInputLimitV` (lines 216-224): the whole
input-voltage-limit register byte, value `raw * 0.1` volts. -/
def getInputLimitV (s : Regs) : ℚ :=
  (readReg8 s BQ25798_REG_INPUT_VOLTAGE_LIMIT : ℚ) * 0.1

/-- Raw-value conversion of `setInputLimitV`: cast of `voltage / 0.1`
followed by the clamp to the 8-bit range (lines 236-242). -/
def setInputLimitV_raw (voltage : ℚ) : Nat :=
  let reg_value := truncQ (voltage / 0.1)
  if reg_value > 255 then 255 else reg_value

/-- `Adafruit_BQ25798::setInputLimitV` (lines 231-250): guard
`3.6 ≤ voltage ≤ 22.0`, then write the converted raw value directly to the
whole input-voltage-limit register byte (no RegisterBits sub-field). -/
def setInputLimitV (s : Regs) (voltage : ℚ) : Bool × Regs :=
  if voltage < 3.6 ∨ voltage > 22.0 then (false, s)
  else
    (true, writeReg8 s BQ25798_REG_INPUT_VOLTAGE_LIMIT (setInputLimitV_raw voltage))

/-- `Adafruit_BQ25798::getPrechargeLimitA` (lines 337-347): 6-bit field at
offset 0 of the precharge-control register, value `raw * 0.04` amps. -/
def getPrechargeLimitA (s : Regs) : ℚ :=
  (bitsRead (readReg8 s BQ25798_REG_PRECHARGE_CONTROL) 6 0 : ℚ) * 0.04

/-- Raw-value conversion of `setPrechargeLimitA`: cast of `current / 0.04`
followed by the clamp to the 6-bit range (lines 359-365). -/
def setPrechargeLimitA_raw (current : ℚ) : Nat :=
  let reg_value := truncQ (current / 0.04)
  if reg_value > 63 then 63 else reg_value

/-- `Adafruit_BQ25798::setPrechargeLimitA` (lines 354-375): guard
`0.04 ≤ current ≤ 2.0`, then write the converted raw value to the 6-bit
field at offset 0 of the precharge-control register. -/
def setPrechargeLimitA (s : Regs) (current : ℚ) : Bool × Regs :=
  if current < 0.04 ∨ current > 2.0 then (false, s)
  else
    (true, writeReg8 s BQ25798_REG_PRECHARGE_CONTROL
      (bitsWrite (readReg8 s BQ25798_REG_PRECHARGE_CONTROL) 6 0
        (setPrechargeLimitA_raw current)))

/-- `Adafruit_BQ25798::getOTGV` (lines 571-581): 11-bit field at offset 0
of the two-byte OTG-regulation register, value `raw * 0.01 + 2.8` volts. -/
def getOTGV (s : Regs) : ℚ :=
  (bitsRead (readReg16 s BQ25798_REG_VOTG_REGULATION) 11 0 : ℚ) * 0.01 + 2.8

/-- Raw-value conversion of `setOTGV`: cast of `(voltage - 2.8) / 0.01`
followed by the clamp to the 11-bit range (lines 593-599). -/
def setOTGV_raw (voltage : ℚ) : Nat :=
  let reg_value := truncQ ((voltage - 2.8) / 0.01)
  if reg_value > 2047 then 2047 else reg_value

/-- `Adafruit_BQ25798::setOTGV` (lines 588-609): guard
`2.8 ≤ voltage ≤ 22.0`, then write the converted raw value to the 11-bit
field at offset 0 of the two-byte OTG-regulation register. -/
def setOTGV (s : Regs) (voltage : ℚ) : Bool × Regs :=
  if voltage < 2.8 ∨ voltage > 22.0 then (false, s)
  else
    (true, writeReg16 s BQ25798_REG_VOTG_REGULATION
      (bitsWrite (readReg16 s BQ25798_REG_VOTG_REGULATION) 11 0
        (setOTGV_raw voltage)))

/-- Modelled from the spec: maximum defined enumerator of the 2-bit
VBAT_LOWV field (all four threshold codes are defined), declared as
`BQ25798_VBAT_LOWV_71_4_PERCENT` in the library header. -/
def BQ25798_VBAT_LOWV_71_4_PERCENT : Nat := 3

/-- `Adafruit_BQ25798::getVBatLowV` (lines 301-310): 2-bit field at offset 6
of the precharge-control register, returned as the raw enum ordinal. -/
def getVBatLowV (s : Regs) : Nat :=
  bitsRead (readReg8 s BQ25798_REG_PRECHARGE_CONTROL) 2 6

/-- `Adafruit_BQ25798::setVBatLowV` (lines 318-331): rejects ordinals above
`BQ25798_VBAT_LOWV_71_4_PERCENT`, otherwise writes the raw ordinal to the
2-bit field at offset 6 of the precharge-control register. -/
def setVBatLowV (s : Regs) (threshold : Nat) : Bool × Regs :=
  if threshold > BQ25798_VBAT_LOWV_71_4_PERCENT then (false, s)
  else
    (true, writeReg8 s BQ25798_REG_PRECHARGE_CONTROL
      (bitsWrite (readReg8 s BQ25798_REG_PRECHARGE_CONTROL) 2 6 threshold))

/-- Modelled from the spec: maximum defined enumerator of the 3-bit
watchdog-timer field (all eight codes are defined), declared as
`BQ25798_WDT_160S` in the library header. -/
def BQ25798_WDT_160S : Nat := 7

/-- `Adafruit_BQ25798::getWDT` (lines 1199-1208): 3-bit field at offset 0
of the charger-control-1 register, returned as the raw enum ordinal. -/
def getWDT (s : Regs) : Nat :=
  bitsRead (readReg8 s BQ25798_REG_CHARGER_CONTROL_1) 3 0

/-- `Adafruit_BQ25798::setWDT` (lines 1215-1228): rejects ordinals above
`BQ25798_WDT_160S`, otherwise writes the raw ordinal to the 3-bit field at
offset 0 of the charger-control-1 register. -/
def setWDT (s : Regs) (timer : Nat) : Bool × Regs :=
  if timer > BQ25798_WDT_160S then (false, s)
  else
    (true, writeReg8 s BQ25798_REG_CHARGER_CONTROL_1
      (bitsWrite (readReg8 s BQ25798_REG_CHARGER_CONTROL_1) 3 0 timer))

/-- Modelled from the spec: maximum defined enumerator of the 3-bit
VINDPM-VOC-percentage field (all eight codes are defined in the library
header's `bq25798_voc_pct_t`). -/
def BQ25798_VOC_PCT_MAX : Nat := 7

/-- `Adafruit_BQ25798::getVINDPM_VOCpercent` (lines 2111-2118): 3-bit field
at offset 5 of the MPPT-control register, returned as the raw enum
ordinal. -/
def getVINDPM_VOCpercent (s : Regs) : Nat :=
  bitsRead (readReg8 s BQ25798_REG_MPPT_CONTROL) 3 5

/-- `Adafruit_BQ25798::setVINDPM_VOCpercent` (lines 2125-2134): writes the
raw ordinal to the 3-bit field at offset 5 of the MPPT-control register
with NO range check and returns true unconditionally. -/
def setVINDPM_VOCpercent (s : Regs) (percentage : Nat) : Bool × Regs :=
  (true, writeReg8 s BQ25798_REG_MPPT_CONTROL
    (bitsWrite (readReg8 s BQ25798_REG_MPPT_CONTROL) 3 5 percentage))

/-- `Adafruit_BQ25798::setVOCdelay` (lines 2154-2163): writes the raw
ordinal to the 2-bit field at offset 3 of the MPPT-control register with
NO range check and returns true unconditionally. -/
def setVOCdelay (s : Regs) (delay : Nat) : Bool × Regs :=
  (true, writeReg8 s BQ25798_REG_MPPT_CONTROL
    (bitsWrite (readReg8 s BQ25798_REG_MPPT_CONTROL) 2 3 delay))

/-- `Adafruit_BQ25798::getACenable` (lines 1443-1451): the DIS_ACDRV bit
(offset 7 of charger-control-3) is hardware-inverted; the getter reports
true when the physical bit reads 0. -/
def getACenable (s : Regs) : Bool :=
  bitsRead (readReg8 s BQ25798_REG_CHARGER_CONTROL_3) 1 7 == 0

/-- `Adafruit_BQ25798::setACenable` (lines 1458-1468): writes 0 to the
DIS_ACDRV bit to enable, 1 to disable (inverted logic). -/
def setACenable (s : Regs) (enable : Bool) : Bool × Regs :=
  (true, writeReg8 s BQ25798_REG_CHARGER_CONTROL_3
    (bitsWrite (readReg8 s BQ25798_REG_CHARGER_CONTROL_3) 1 7
      (if enable then 0 else 1)))

/-- `Adafruit_BQ25798::getOTGPFM` (lines 1503-1511): the PFM_OTG_DIS bit
(offset 5 of charger-control-3) is hardware-inverted; the getter reports
true when the physical bit reads 0. -/
def getOTGPFM (s : Regs) : Bool :=
  bitsRead (readReg8 s BQ25798_REG_CHARGER_CONTROL_3) 1 5 == 0

/-- `Adafruit_BQ25798::setOTGPFM` (lines 1518-1528): writes 0 to the
PFM_OTG_DIS bit to enable, 1 to disable (inverted logic). -/
def setOTGPFM (s : Regs) (enable : Bool) : Bool × Regs :=
  (true, writeReg8 s BQ25798_REG_CHARGER_CONTROL_3
    (bitsWrite (readReg8 s BQ25798_REG_CHARGER_CONTROL_3) 1 5
      (if enable then 0 else 1)))

/-- `Adafruit_BQ25798::getStatPinEnable` (lines 1786-1794): the DIS_STAT
bit (offset 4 of charger-control-4) is hardware-inverted; the getter
reports true when the physical bit reads 0. -/
def getStatPinEnable (s : Regs) : Bool :=
  bitsRead (readReg8 s BQ25798_REG_CHARGER_CONTROL_4) 1 4 == 0

/-- `Adafruit_BQ25798::setStatPinEnable` (lines 1801-1811): writes 0 to the
DIS_STAT bit to enable, 1 to disable (inverted logic). -/
def setStatPinEnable (s : Regs) (enable : Bool) : Bool × Regs :=
  (true, writeReg8 s BQ25798_REG_CHARGER_CONTROL_4
    (bitsWrite (readReg8 s BQ25798_REG_CHARGER_CONTROL_4) 1 4
      (if enable then 0 else 1)))

/-- `Adafruit_BQ25798::reset` (lines 2401-2410): writes 1 to the
self-clearing REG_RST bit (offset 6 of the termination-control register)
and returns true unconditionally. -/
def reset (s : Regs) : Bool × Regs :=
  (true, writeReg8 s BQ25798_REG_TERMINATION_CONTROL
    (bitsWrite (readReg8 s BQ25798_REG_TERMINATION_CONTROL) 1 6 1))

/-- `Adafruit_BQ25798::begin` (lines 53-78).  The bus-transport open
(`i2c_dev->begin()`, external Adafruit_BusIO code) is modelled from the
spec as a boolean outcome `busOK`.  On transport failure the call returns
false; otherwise the part-information register is read and the masked
part-number bits `(part_info & 0x38)` are compared against `0x18`; on
mismatch the call returns false with no writes; on match a full register
reset is issued and the call returns true. -/
def begin (busOK : Bool) (s : Regs) : Bool × Regs :=
  if !busOK then (false, s)
  else
    let part_info := readReg8 s BQ25798_REG_PART_INFORMATION
    if Nat.land part_info 0x38 ≠ 0x18 then (false, s)
    else (true, (reset s).2)

/-- The all-zero register state, used as a concrete sample point. -/
def regsZero : Regs := fun _ => 0

/-- A register state whose part-information register carries the expected
part-number code 011b in bits 5-3, used as a concrete sample point. -/
def regsGoodPart : Regs := fun a => if a = BQ25798_REG_PART_INFORMATION then 0x18 else 0

/-- A register state with raw value 63 in the minimal-system-voltage
field, used as a concrete sample point. -/
def regsMinSys63 : Regs := fun a => if a = BQ25798_REG_MINIMAL_SYSTEM_VOLTAGE then 63 else 0

/-- Decomposition of `bitsWrite` exposing the preserved high bits. -/
theorem bitsWrite_decomp (x w o v : Nat) :
    bitsWrite x w o v
      = 2 ^ (o + w) * (x / 2 ^ (o + w)) + ((v % 2 ^ w) * 2 ^ o + x % 2 ^ o) := by
  unfold bitsWrite
  rw [pow_add]
  ring

/-- Decomposition of `bitsWrite` exposing the preserved low bits. -/
theorem bitsWrite_decomp_low (x w o v : Nat) :
    bitsWrite x w o v
      = 2 ^ o * (x / 2 ^ (o + w) * 2 ^ w + v % 2 ^ w) + x % 2 ^ o := by
  unfold bitsWrite
  ring

/-- The merged field value and the preserved low bits fit below the high
bits. -/
theorem bitsWrite_low_part_lt (x w o v : Nat) :
    (v % 2 ^ w) * 2 ^ o + x % 2 ^ o < 2 ^ (o + w) := by
  have hm : v % 2 ^ w < 2 ^ w := Nat.mod_lt _ (Nat.two_pow_pos w)
  have hr : x % 2 ^ o < 2 ^ o := Nat.mod_lt _ (Nat.two_pow_pos o)
  calc (v % 2 ^ w) * 2 ^ o + x % 2 ^ o
      < (v % 2 ^ w) * 2 ^ o + 2 ^ o := Nat.add_lt_add_left hr _
    _ = (v % 2 ^ w + 1) * 2 ^ o := by ring
    _ ≤ 2 ^ w * 2 ^ o := Nat.mul_le_mul_right _ hm
    _ = 2 ^ (o + w) := by rw [← pow_add, Nat.add_comm]

/-- Reading a field back right after writing it yields the written value
reduced to the field width. -/
theorem bitsRead_bitsWrite (x w o v : Nat) :
    bitsRead (bitsWrite x w o v) w o = v % 2 ^ w := by
  rw [bitsRead, bitsWrite_decomp_low, Nat.mul_add_div (Nat.two_pow_pos o),
    Nat.div_eq_of_lt (Nat.mod_lt _ (Nat.two_pow_pos o)), Nat.add_zero,
    Nat.mul_comm (x / 2 ^ (o + w)) (2 ^ w), Nat.mul_add_mod,
    Nat.mod_mod_of_dvd _ dvd_rfl]

/-- A field write preserves the register bits below the field. -/
theorem bitsWrite_mod_low (x w o v : Nat) :
    bitsWrite x w o v % 2 ^ o = x % 2 ^ o := by
  rw [bitsWrite_decomp_low, Nat.mul_add_mod, Nat.mod_mod_of_dvd _ dvd_rfl]

/-- A field write preserves the register bits above the field. -/
theorem bitsWrite_div_high (x w o v : Nat) :
    bitsWrite x w o v / 2 ^ (o + w) = x / 2 ^ (o + w) := by
  rw [bitsWrite_decomp, Nat.mul_add_div (Nat.two_pow_pos _),
    Nat.div_eq_of_lt (bitsWrite_low_part_lt x w o v), Nat.add_zero]

/-- A field write keeps the register value inside the register width. -/
theorem bitsWrite_lt (x w o v n : Nat) (hx : x < 2 ^ n) (hwo : o + w ≤ n) :
    bitsWrite x w o v < 2 ^ n := by
  rw [bitsWrite_decomp]
  have hhi : x / 2 ^ (o + w) < 2 ^ (n - (o + w)) := by
    rw [Nat.div_lt_iff_lt_mul (Nat.two_pow_pos _)]
    calc x < 2 ^ n := hx
      _ = 2 ^ (n - (o + w)) * 2 ^ (o + w) := by
          rw [← pow_add]
          congr 1
          omega
  calc 2 ^ (o + w) * (x / 2 ^ (o + w)) + ((v % 2 ^ w) * 2 ^ o + x % 2 ^ o)
      < 2 ^ (o + w) * (x / 2 ^ (o + w)) + 2 ^ (o + w) :=
        Nat.add_lt_add_left (bitsWrite_low_part_lt x w o v) _
    _ = 2 ^ (o + w) * (x / 2 ^ (o + w) + 1) := by ring
    _ ≤ 2 ^ (o + w) * 2 ^ (n - (o + w)) := Nat.mul_le_mul_left _ hhi
    _ = 2 ^ n := by
        rw [← pow_add]
        congr 1
        omega

/-- A register byte is below 256. -/
theorem readReg8_lt (s : Regs) (a : Nat) : readReg8 s a < 256 :=
  Nat.mod_lt _ (by norm_num)

/-- A two-byte register value is below 65536. -/
theorem readReg16_lt (s : Regs) (a : Nat) : readReg16 s a < 65536 := by
  have h1 := readReg8_lt s a
  have h2 := readReg8_lt s (a + 1)
  unfold readReg16
  omega

/-- Reading a byte back after writing it. -/
theorem readReg8_writeReg8_same (s : Regs) (a v : Nat) :
    readReg8 (writeReg8 s a v) a = v % 256 := by
  unfold readReg8 writeReg8
  simp [Nat.mod_mod_of_dvd _ dvd_rfl]

/-- Writing one register leaves the bytes of other addresses unchanged. -/
theorem readReg8_writeReg8_ne (s : Regs) (a b v : Nat) (h : b ≠ a) :
    readReg8 (writeReg8 s a v) b = readReg8 s b := by
  unfold readReg8 writeReg8
  simp [h]

/-- Writing one register leaves other addresses unchanged. -/
theorem writeReg8_ne (s : Regs) (a b v : Nat) (h : b ≠ a) :
    writeReg8 s a v b = s b := by
  unfold writeReg8
  simp [h]

/-- Reading a two-byte register back after writing it. -/
theorem readReg16_writeReg16_same (s : Regs) (a v : Nat) :
    readReg16 (writeReg16 s a v) a = v % 65536 := by
  unfold readReg16 writeReg16
  rw [readReg8_writeReg8_same, readReg8_writeReg8_ne _ _ _ _ (by omega),
    readReg8_writeReg8_same]
  omega

/-- Reading a one-byte register field back after a field write. -/
theorem readReg8_after_field_write (s : Regs) (a w o v : Nat) (hwo : o + w ≤ 8) :
    readReg8 (writeReg8 s a (bitsWrite (readReg8 s a) w o v)) a
      = bitsWrite (readReg8 s a) w o v := by
  rw [readReg8_writeReg8_same]
  apply Nat.mod_eq_of_lt
  have hx : readReg8 s a < 2 ^ 8 := by
    have := readReg8_lt s a
    omega
  have := bitsWrite_lt (readReg8 s a) w o v 8 hx hwo
  norm_num at this
  exact this

/-- Reading a two-byte register field back after a field write. -/
theorem readReg16_after_field_write (s : Regs) (a w o v : Nat) (hwo : o + w ≤ 16) :
    readReg16 (writeReg16 s a (bitsWrite (readReg16 s a) w o v)) a
      = bitsWrite (readReg16 s a) w o v := by
  rw [readReg16_writeReg16_same]
  apply Nat.mod_eq_of_lt
  have hx : readReg16 s a < 2 ^ 16 := by
    have := readReg16_lt s a
    omega
  have := bitsWrite_lt (readReg16 s a) w o v 16 hx hwo
  norm_num at this
  exact this

/-- `truncQ` is monotone against natural bounds. -/
theorem truncQ_le_of_le (q : ℚ) (n : Nat) (h : q ≤ n) : truncQ q ≤ n := by
  unfold truncQ
  rw [Int.toNat_le]
  have := Int.floor_mono h
  rwa [Int.floor_natCast] at this

/-- `truncQ` of a nonnegative rational is at most that rational. -/
theorem truncQ_cast_le {q : ℚ} (hq : 0 ≤ q) : (truncQ q : ℚ) ≤ q := by
  unfold truncQ
  have h0 : (0 : ℤ) ≤ ⌊q⌋ := Int.floor_nonneg.mpr hq
  have h1 : ((⌊q⌋.toNat : ℚ)) = ((⌊q⌋ : ℚ)) := by
    exact_mod_cast congrArg (fun z : ℤ => (z : ℚ)) (Int.toNat_of_nonneg h0)
  rw [h1]
  exact Int.floor_le q

/-- A nonnegative rational is below its `truncQ` plus one. -/
theorem lt_truncQ_add_one {q : ℚ} (hq : 0 ≤ q) : q < (truncQ q : ℚ) + 1 := by
  unfold truncQ
  have h0 : (0 : ℤ) ≤ ⌊q⌋ := Int.floor_nonneg.mpr hq
  have h1 : ((⌊q⌋.toNat : ℚ)) = ((⌊q⌋ : ℚ)) := by
    exact_mod_cast congrArg (fun z : ℤ => (z : ℚ)) (Int.toNat_of_nonneg h0)
  rw [h1]
  exact Int.lt_floor_add_one q

/-- Conversion of floor bounds on the scaled quotient into round-trip
bounds on the decoded value. -/
theorem roundtrip_bounds (v off scale : ℚ) (r : Nat) (hs : 0 < scale)
    (h1 : (r : ℚ) ≤ (v - off) / scale) (h2 : (v - off) / scale < (r : ℚ) + 1) :
    (r : ℚ) * scale + off ≤ v ∧ v - scale < (r : ℚ) * scale + off := by
  have h3 : (r : ℚ) * scale ≤ v - off := (le_div_iff₀ hs).mp h1
  have h4 : v - off < ((r : ℚ) + 1) * scale := (div_lt_iff₀ hs).mp h2
  rw [add_mul, one_mul] at h4
  exact ⟨by linarith, by linarith⟩

/-- Shape of every validating setter: an out-of-domain input yields failure
with the state untouched, everything else succeeds. -/
theorem setter_shape {c : Prop} [Decidable c] (s X : Regs) :
    ((if c then ((false : Bool), s) else (true, X)).1 = false ↔ c)
    ∧ (c → (if c then ((false : Bool), s) else (true, X)).2 = s) := by
  by_cases h : c <;> simp [h]

/-- C1: For every linear-scaled setter (`setMinSystemV`, `setChargeLimitV`,
`setChargeLimitA`, `setInputLimitV`) and every input strictly below
`minValue` or strictly above `maxValue`, the setter returns false and
performs no bus write, leaving the registers unchanged; for inputs exactly
equal to `minValue` or `maxValue` it returns true. -/
theorem C1_linear_setters_range (s : Regs) (v : ℚ) :
    (((setMinSystemV s v).1 = false ↔ v < 2.5 ∨ v > 16.0)
      ∧ (v < 2.5 ∨ v > 16.0 → (setMinSystemV s v).2 = s)
      ∧ (setMinSystemV s 2.5).1 = true ∧ (setMinSystemV s 16.0).1 = true)
    ∧ (((setChargeLimitV s v).1 = false ↔ v < 3.0 ∨ v > 18.8)
      ∧ (v < 3.0 ∨ v > 18.8 → (setChargeLimitV s v).2 = s)
      ∧ (setChargeLimitV s 3.0).1 = true ∧ (setChargeLimitV s 18.8).1 = true)
    ∧ (((setChargeLimitA s v).1 = false ↔ v < 0.05 ∨ v > 5.0)
      ∧ (v < 0.05 ∨ v > 5.0 → (setChargeLimitA s v).2 = s)
      ∧ (setChargeLimitA s 0.05).1 = true ∧ (setChargeLimitA s 5.0).1 = true)
    ∧ (((setInputLimitV s v).1 = false ↔ v < 3.6 ∨ v > 22.0)
      ∧ (v < 3.6 ∨ v > 22.0 → (setInputLimitV s v).2 = s)
      ∧ (setInputLimitV s 3.6).1 = true ∧ (setInputLimitV s 22.0).1 = true) := by
  refine ⟨⟨(setter_shape s _).1, (setter_shape s _).2, ?_, ?_⟩,
    ⟨(setter_shape s _).1, (setter_shape s _).2, ?_, ?_⟩,
    ⟨(setter_shape s _).1, (setter_shape s _).2, ?_, ?_⟩,
    ⟨(setter_shape s _).1, (setter_shape s _).2, ?_, ?_⟩⟩ <;>
  · norm_num [setMinSystemV, setChargeLimitV, setChargeLimitA, setInputLimitV]

/-- Witness for C1 at concrete inputs below and above range and at a range
boundary. -/
theorem C1_linear_setters_range_witness :
    (setMinSystemV regsZero 2.0).1 = false
    ∧ (setMinSystemV regsZero 2.0).2 = regsZero
    ∧ (setChargeLimitV regsZero 2.0).1 = false
    ∧ (setChargeLimitV regsZero 19.0).2 = regsZero
    ∧ (setMinSystemV regsZero 2.5).1 = true := by
  have h := C1_linear_setters_range regsZero 2.0
  have h2 := C1_linear_setters_range regsZero 19.0
  exact ⟨h.1.1.mpr (Or.inl (by norm_num)), h.1.2.1 (Or.inl (by norm_num)),
    h.2.1.1.mpr (Or.inl (by norm_num)), h2.2.1.2.1 (Or.inr (by norm_num)),
    h.1.2.2.1⟩

/-- C2: for every linear-scaled setting and every valid input `v` with
`minValue ≤ v ≤ maxValue`, calling the setter with `v` and then the getter
returns a value within one encoding step (`scale`) of `v`. -/
theorem C2_roundtrip_within_step (s : Regs) (v : ℚ) :
    (2.5 ≤ v → v ≤ 16.0 →
      getMinSystemV (setMinSystemV s v).2 ≤ v
        ∧ v - 0.25 < getMinSystemV (setMinSystemV s v).2)
    ∧ (3.0 ≤ v → v ≤ 18.8 →
      getChargeLimitV (setChargeLimitV s v).2 ≤ v
        ∧ v - 0.01 < getChargeLimitV (setChargeLimitV s v).2)
    ∧ (0.05 ≤ v → v ≤ 5.0 →
      getChargeLimitA (setChargeLimitA s v).2 ≤ v
        ∧ v - 0.01 < getChargeLimitA (setChargeLimitA s v).2)
    ∧ (3.6 ≤ v → v ≤ 22.0 →
      getInputLimitV (setInputLimitV s v).2 ≤ v
        ∧ v - 0.1 < getInputLimitV (setInputLimitV s v).2) := by
  refine ⟨?_, ?_, ?_, ?_⟩
  · intro hlo hhi
    have hq0 : (0 : ℚ) ≤ (v - 2.5) / 0.25 := div_nonneg (by linarith) (by norm_num)
    have hqle : (v - 2.5) / 0.25 ≤ (54 : ℚ) := by
      rw [div_le_iff₀ (by norm_num)]
      linarith
    have hr54 : truncQ ((v - 2.5) / 0.25) ≤ 54 :=
      truncQ_le_of_le _ 54 (by exact_mod_cast hqle)
    have hraw : setMinSystemV_raw v = truncQ ((v - 2.5) / 0.25) := by
      unfold setMinSystemV_raw
      rw [if_neg (by omega)]
    have hset : (setMinSystemV s v).2
        = writeReg8 s BQ25798_REG_MINIMAL_SYSTEM_VOLTAGE
            (bitsWrite (readReg8 s BQ25798_REG_MINIMAL_SYSTEM_VOLTAGE) 6 0
              (setMinSystemV_raw v)) := by
      unfold setMinSystemV
      rw [if_neg (by rintro (h | h) <;> linarith)]
    have hget : getMinSystemV (setMinSystemV s v).2
        = (truncQ ((v - 2.5) / 0.25) : ℚ) * 0.25 + 2.5 := by
      rw [hset]
      unfold getMinSystemV
      rw [readReg8_after_field_write s _ 6 0 _ (by norm_num), bitsRead_bitsWrite,
        hraw, Nat.mod_eq_of_lt (by omega)]
    rw [hget]
    have := roundtrip_bounds v 2.5 0.25 _ (by norm_num)
      (truncQ_cast_le hq0) (lt_truncQ_add_one hq0)
    exact ⟨this.1, this.2⟩
  · intro hlo hhi
    have hsub : v / 0.01 = (v - 0) / 0.01 := by rw [sub_zero]
    have hq0 : (0 : ℚ) ≤ v / 0.01 := div_nonneg (by linarith) (by norm_num)
    have hqle : v / 0.01 ≤ (1880 : ℚ) := by
      rw [div_le_iff₀ (by norm_num)]
      linarith
    have hrle : truncQ (v / 0.01) ≤ 1880 :=
      truncQ_le_of_le _ 1880 (by exact_mod_cast hqle)
    have hraw : setChargeLimitV_raw v = truncQ (v / 0.01) := by
      unfold setChargeLimitV_raw
      rw [if_neg (by omega)]
    have hset : (setChargeLimitV s v).2
        = writeReg16 s BQ25798_REG_CHARGE_VOLTAGE_LIMIT
            (bitsWrite (readReg16 s BQ25798_REG_CHARGE_VOLTAGE_LIMIT) 11 0
              (setChargeLimitV_raw v)) := by
      unfold setChargeLimitV
      rw [if_neg (by rintro (h | h) <;> linarith)]
    have hget : getChargeLimitV (setChargeLimitV s v).2
        = (truncQ (v / 0.01) : ℚ) * 0.01 := by
      rw [hset]
      unfold getChargeLimitV
      rw [readReg16_after_field_write s _ 11 0 _ (by norm_num), bitsRead_bitsWrite,
        hraw, Nat.mod_eq_of_lt (by omega)]
    rw [hget]
    rw [hsub] at hq0
    have := roundtrip_bounds v 0 0.01 _ (by norm_num)
      (truncQ_cast_le hq0) (lt_truncQ_add_one hq0)
    rw [← hsub] at this
    constructor <;> linarith [this.1, this.2]
  · intro hlo hhi
    have hsub : v / 0.01 = (v - 0) / 0.01 := by rw [sub_zero]
    have hq0 : (0 : ℚ) ≤ v / 0.01 := div_nonneg (by linarith) (by norm_num)
    have hqle : v / 0.01 ≤ (500 : ℚ) := by
      rw [div_le_iff₀ (by norm_num)]
      linarith
    have hrle : truncQ (v / 0.01) ≤ 500 :=
      truncQ_le_of_le _ 500 (by exact_mod_cast hqle)
    have hraw : setChargeLimitA_raw v = truncQ (v / 0.01) := by
      unfold setChargeLimitA_raw
      rw [if_neg (by omega)]
    have hset : (setChargeLimitA s v).2
        = writeReg16 s BQ25798_REG_CHARGE_CURRENT_LIMIT
            (bitsWrite (readReg16 s BQ25798_REG_CHARGE_CURRENT_LIMIT) 9 0
              (setChargeLimitA_raw v)) := by
      unfold setChargeLimitA
      rw [if_neg (by rintro (h | h) <;> linarith)]
    have hget : getChargeLimitA (setChargeLimitA s v).2
        = (truncQ (v / 0.01) : ℚ) * 0.01 := by
      rw [hset]
      unfold getChargeLimitA
      rw [readReg16_after_field_write s _ 9 0 _ (by norm_num), bitsRead_bitsWrite,
        hraw, Nat.mod_eq_of_lt (by omega)]
    rw [hget]
    rw [hsub] at hq0
    have := roundtrip_bounds v 0 0.01 _ (by norm_num)
      (truncQ_cast_le hq0) (lt_truncQ_add_one hq0)
    rw [← hsub] at this
    constructor <;> linarith [this.1, this.2]
  · intro hlo hhi
    have hsub : v / 0.1 = (v - 0) / 0.1 := by rw [sub_zero]
    have hq0 : (0 : ℚ) ≤ v / 0.1 := div_nonneg (by linarith) (by norm_num)
    have hqle : v / 0.1 ≤ (220 : ℚ) := by
      rw [div_le_iff₀ (by norm_num)]
      linarith
    have hrle : truncQ (v / 0.1) ≤ 220 :=
      truncQ_le_of_le _ 220 (by exact_mod_cast hqle)
    have hraw : setInputLimitV_raw v = truncQ (v / 0.1) := by
      unfold setInputLimitV_raw
      rw [if_neg (by omega)]
    have hset : (setInputLimitV s v).2
        = writeReg8 s BQ25798_REG_INPUT_VOLTAGE_LIMIT (setInputLimitV_raw v) := by
      unfold setInputLimitV
      rw [if_neg (by rintro (h | h) <;> linarith)]
    have hget : getInputLimitV (setInputLimitV s v).2
        = (truncQ (v / 0.1) : ℚ) * 0.1 := by
      rw [hset]
      unfold getInputLimitV
      rw [readReg8_writeReg8_same, hraw, Nat.mod_eq_of_lt (by omega)]
    rw [hget]
    rw [hsub] at hq0
    have := roundtrip_bounds v 0 0.1 _ (by norm_num)
      (truncQ_cast_le hq0) (lt_truncQ_add_one hq0)
    rw [← hsub] at this
    constructor <;> linarith [this.1, this.2]

/-- Witness for C2 at a concrete in-range input. -/
theorem C2_roundtrip_within_step_witness :
    getMinSystemV (setMinSystemV regsZero 3.3).2 ≤ 3.3
      ∧ (3.3 : ℚ) - 0.25 < getMinSystemV (setMinSystemV regsZero 3.3).2 :=
  (C2_roundtrip_within_step regsZero 3.3).1 (by norm_num) (by norm_num)

/-- A field write leaves every register bit outside the field's
offset/width window unchanged. -/
theorem bitsWrite_testBit_frame (x w o v j : Nat) (hj : j < o ∨ o + w ≤ j) :
    (bitsWrite x w o v).testBit j = x.testBit j := by
  rcases hj with hj | hj
  · have e1 : (bitsWrite x w o v).testBit j
        = (bitsWrite x w o v % 2 ^ o).testBit j := by
      rw [Nat.testBit_mod_two_pow]
      simp [hj]
    rw [e1, bitsWrite_mod_low, Nat.testBit_mod_two_pow]
    simp [hj]
  · have key : ∀ y : Nat, Nat.testBit y j
        = Nat.testBit (y / 2 ^ (o + w)) (j - (o + w)) := by
      intro y
      rw [Nat.testBit_to_div_mod, Nat.testBit_to_div_mod, Nat.div_div_eq_div_mul,
        ← pow_add]
      have e : o + w + (j - (o + w)) = j := by omega
      rw [e]
    rw [key, key x, bitsWrite_div_high]

/-- C3 counterexample: `setVINDPM_VOCpercent` accepts the ordinal 100,
which is strictly greater than the maximum defined enumerator of its
3-bit field, returns true and performs a write (the MPPT-control register
changes), contradicting the claim that every enumerated setter rejects
such ordinals. -/
theorem C3_enum_counterexample :
    100 > BQ25798_VOC_PCT_MAX
    ∧ (setVINDPM_VOCpercent regsZero 100).1 = true
    ∧ (setVINDPM_VOCpercent regsZero 100).2 BQ25798_REG_MPPT_CONTROL
        ≠ regsZero BQ25798_REG_MPPT_CONTROL := by
  refine ⟨by decide, rfl, by decide⟩

/-- C3 (amended): enumerated setters that carry a range check
(`setVBatLowV`, `setWDT`, and the other checked ones) reject any ordinal
strictly greater than the field's maximum defined enumerator with no
write, and succeed (writing the raw ordinal, which round-trips) for all
defined enumerators; but `setVINDPM_VOCpercent` and `setVOCdelay` (and the
other unchecked ones) perform no validation and return true for every
ordinal. -/
theorem C3_enum_setters_amended (s : Regs) (ord : Nat) :
    ((ord > BQ25798_VBAT_LOWV_71_4_PERCENT →
        (setVBatLowV s ord).1 = false ∧ (setVBatLowV s ord).2 = s)
      ∧ (ord ≤ BQ25798_VBAT_LOWV_71_4_PERCENT →
        (setVBatLowV s ord).1 = true ∧ getVBatLowV (setVBatLowV s ord).2 = ord))
    ∧ ((ord > BQ25798_WDT_160S →
        (setWDT s ord).1 = false ∧ (setWDT s ord).2 = s)
      ∧ (ord ≤ BQ25798_WDT_160S →
        (setWDT s ord).1 = true ∧ getWDT (setWDT s ord).2 = ord))
    ∧ (setVINDPM_VOCpercent s ord).1 = true
    ∧ (setVOCdelay s ord).1 = true := by
  refine ⟨⟨?_, ?_⟩, ⟨?_, ?_⟩, rfl, rfl⟩
  · intro h
    unfold setVBatLowV
    rw [if_pos h]
    exact ⟨rfl, rfl⟩
  · intro h
    have h3 : ord ≤ 3 := h
    unfold setVBatLowV
    rw [if_neg (by omega)]
    refine ⟨rfl, ?_⟩
    unfold getVBatLowV
    rw [readReg8_after_field_write s _ 2 6 _ (by norm_num), bitsRead_bitsWrite]
    omega
  · intro h
    unfold setWDT
    rw [if_pos h]
    exact ⟨rfl, rfl⟩
  · intro h
    have h7 : ord ≤ 7 := h
    unfold setWDT
    rw [if_neg (by omega)]
    refine ⟨rfl, ?_⟩
    unfold getWDT
    rw [readReg8_after_field_write s _ 3 0 _ (by norm_num), bitsRead_bitsWrite]
    omega

/-- Witness for C3 (amended) at concrete ordinals on both sides of the
checks. -/
theorem C3_enum_setters_amended_witness :
    ((setVBatLowV regsZero 5).1 = false ∧ (setVBatLowV regsZero 5).2 = regsZero)
    ∧ ((setVBatLowV regsZero 2).1 = true
        ∧ getVBatLowV (setVBatLowV regsZero 2).2 = 2)
    ∧ (setWDT regsZero 9).1 = false
    ∧ (setVINDPM_VOCpercent regsZero 9).1 = true := by
  have h5 := C3_enum_setters_amended regsZero 5
  have h2 := C3_enum_setters_amended regsZero 2
  have h9 := C3_enum_setters_amended regsZero 9
  exact ⟨h5.1.1 (by decide), h2.1.2 (by decide), (h9.2.1.1 (by decide)).1,
    h9.2.2.1⟩

/-- C4: writing a field never alters bits of the register outside the
field's declared bit offset and width: every bit of the merged register
value outside the window equals its prior value, and (instantiated at
`setMinSystemV`, 6-bit field at offset 0) every register-byte bit at
position 6 and above, and every other register address, are preserved by
the setter. -/
theorem C4_field_write_bit_isolation :
    (∀ x w o v j, j < o ∨ o + w ≤ j →
      (bitsWrite x w o v).testBit j = x.testBit j)
    ∧ (∀ (s : Regs) (v : ℚ) (j : Nat), 6 ≤ j →
      Nat.testBit (readReg8 (setMinSystemV s v).2 BQ25798_REG_MINIMAL_SYSTEM_VOLTAGE) j
        = Nat.testBit (readReg8 s BQ25798_REG_MINIMAL_SYSTEM_VOLTAGE) j)
    ∧ (∀ (s : Regs) (v : ℚ) (a : Nat), a ≠ BQ25798_REG_MINIMAL_SYSTEM_VOLTAGE →
      (setMinSystemV s v).2 a = s a) := by
  refine ⟨fun x w o v j hj => bitsWrite_testBit_frame x w o v j hj, ?_, ?_⟩
  · intro s v j hj
    unfold setMinSystemV
    split
    · rfl
    · rw [readReg8_after_field_write s _ 6 0 _ (by norm_num)]
      exact bitsWrite_testBit_frame _ 6 0 _ j (Or.inr (by omega))
  · intro s v a ha
    unfold setMinSystemV
    split
    · rfl
    · exact writeReg8_ne s _ a _ ha

/-- Witness for C4 at a concrete register value, field and bit. -/
theorem C4_field_write_bit_isolation_witness :
    Nat.testBit (bitsWrite 255 6 0 9) 7 = Nat.testBit 255 7
    ∧ (setMinSystemV regsZero 3.0).2 5 = regsZero 5 := by
  have h := C4_field_write_bit_isolation
  exact ⟨h.1 255 6 0 9 7 (Or.inr (by norm_num)), h.2.2 regsZero 3.0 5 (by decide)⟩

set_option maxRecDepth 4096 in
/-- C5: `begin` returns false when the bus-transport open fails, returns
false with no register writes (in particular no reset) when the 3-bit
part-number sub-field (bits 5-3) of the part-information register does not
equal 011b, and on success issues the full register reset and returns
true; the mask comparison `(part_info & 0x38) = 0x18` is exactly the test
that bits 5-3 equal 3. -/
theorem C5_begin_identity_check (s : Regs) :
    begin false s = (false, s)
    ∧ (Nat.land (readReg8 s BQ25798_REG_PART_INFORMATION) 0x38 ≠ 0x18 →
        begin true s = (false, s))
    ∧ (Nat.land (readReg8 s BQ25798_REG_PART_INFORMATION) 0x38 = 0x18 →
        begin true s = (true, (reset s).2))
    ∧ (∀ part_info, part_info < 256 →
        (Nat.land part_info 0x38 = 0x18 ↔ part_info / 8 % 8 = 3)) := by
  refine ⟨rfl, ?_, ?_, by decide⟩
  · intro h
    show (if Nat.land (readReg8 s BQ25798_REG_PART_INFORMATION) 0x38 ≠ 0x18
        then ((false : Bool), s) else (true, (reset s).2)) = (false, s)
    rw [if_pos h]
  · intro h
    show (if Nat.land (readReg8 s BQ25798_REG_PART_INFORMATION) 0x38 ≠ 0x18
        then ((false : Bool), s) else (true, (reset s).2)) = (true, (reset s).2)
    rw [if_neg (by omega)]

/-- Witness for C5: a device answering zero in the part-information
register is refused with no writes, one answering 0x18 is accepted and
reset. -/
theorem C5_begin_identity_check_witness :
    begin true regsZero = (false, regsZero)
    ∧ begin true regsGoodPart = (true, (reset regsGoodPart).2)
    ∧ begin false regsZero = (false, regsZero) := by
  have h0 := C5_begin_identity_check regsZero
  have h1 := C5_begin_identity_check regsGoodPart
  exact ⟨h0.2.1 (by decide), h1.2.2.1 (by decide), h0.1⟩

/-- C6: for the inverted-logic flags (AC driver enable, OTG PFM, STAT pin
enable), `set true` makes the physical register bit 0, `set false` makes
it 1, and the getter returns true exactly when the physical bit is 0. -/
theorem C6_inverted_flags (s : Regs) :
    (bitsRead (readReg8 (setACenable s true).2 BQ25798_REG_CHARGER_CONTROL_3) 1 7 = 0
      ∧ bitsRead (readReg8 (setACenable s false).2 BQ25798_REG_CHARGER_CONTROL_3) 1 7 = 1
      ∧ (getACenable s = true ↔
          bitsRead (readReg8 s BQ25798_REG_CHARGER_CONTROL_3) 1 7 = 0))
    ∧ (bitsRead (readReg8 (setOTGPFM s true).2 BQ25798_REG_CHARGER_CONTROL_3) 1 5 = 0
      ∧ bitsRead (readReg8 (setOTGPFM s false).2 BQ25798_REG_CHARGER_CONTROL_3) 1 5 = 1
      ∧ (getOTGPFM s = true ↔
          bitsRead (readReg8 s BQ25798_REG_CHARGER_CONTROL_3) 1 5 = 0))
    ∧ (bitsRead (readReg8 (setStatPinEnable s true).2 BQ25798_REG_CHARGER_CONTROL_4) 1 4 = 0
      ∧ bitsRead (readReg8 (setStatPinEnable s false).2 BQ25798_REG_CHARGER_CONTROL_4) 1 4 = 1
      ∧ (getStatPinEnable s = true ↔
          bitsRead (readReg8 s BQ25798_REG_CHARGER_CONTROL_4) 1 4 = 0)) := by
  refine ⟨⟨?_, ?_, ?_⟩, ⟨?_, ?_, ?_⟩, ⟨?_, ?_, ?_⟩⟩
  · show bitsRead (readReg8 (writeReg8 s BQ25798_REG_CHARGER_CONTROL_3
      (bitsWrite (readReg8 s BQ25798_REG_CHARGER_CONTROL_3) 1 7 0))
        BQ25798_REG_CHARGER_CONTROL_3) 1 7 = 0
    rw [readReg8_after_field_write s _ 1 7 0 (by norm_num), bitsRead_bitsWrite]
    norm_num
  · show bitsRead (readReg8 (writeReg8 s BQ25798_REG_CHARGER_CONTROL_3
      (bitsWrite (readReg8 s BQ25798_REG_CHARGER_CONTROL_3) 1 7 1))
        BQ25798_REG_CHARGER_CONTROL_3) 1 7 = 1
    rw [readReg8_after_field_write s _ 1 7 1 (by norm_num), bitsRead_bitsWrite]
    norm_num
  · unfold getACenable
    simp [beq_iff_eq]
  · show bitsRead (readReg8 (writeReg8 s BQ25798_REG_CHARGER_CONTROL_3
      (bitsWrite (readReg8 s BQ25798_REG_CHARGER_CONTROL_3) 1 5 0))
        BQ25798_REG_CHARGER_CONTROL_3) 1 5 = 0
    rw [readReg8_after_field_write s _ 1 5 0 (by norm_num), bitsRead_bitsWrite]
    norm_num
  · show bitsRead (readReg8 (writeReg8 s BQ25798_REG_CHARGER_CONTROL_3
      (bitsWrite (readReg8 s BQ25798_REG_CHARGER_CONTROL_3) 1 5 1))
        BQ25798_REG_CHARGER_CONTROL_3) 1 5 = 1
    rw [readReg8_after_field_write s _ 1 5 1 (by norm_num), bitsRead_bitsWrite]
    norm_num
  · unfold getOTGPFM
    simp [beq_iff_eq]
  · show bitsRead (readReg8 (writeReg8 s BQ25798_REG_CHARGER_CONTROL_4
      (bitsWrite (readReg8 s BQ25798_REG_CHARGER_CONTROL_4) 1 4 0))
        BQ25798_REG_CHARGER_CONTROL_4) 1 4 = 0
    rw [readReg8_after_field_write s _ 1 4 0 (by norm_num), bitsRead_bitsWrite]
    norm_num
  · show bitsRead (readReg8 (writeReg8 s BQ25798_REG_CHARGER_CONTROL_4
      (bitsWrite (readReg8 s BQ25798_REG_CHARGER_CONTROL_4) 1 4 1))
        BQ25798_REG_CHARGER_CONTROL_4) 1 4 = 1
    rw [readReg8_after_field_write s _ 1 4 1 (by norm_num), bitsRead_bitsWrite]
    norm_num
  · unfold getStatPinEnable
    simp [beq_iff_eq]

/-- C7: `setChargeLimitV 4.2` succeeds with raw value 420 and reads back
as 4.20 volts; `setChargeLimitV 2.0` fails below the 3.0 V floor leaving
the registers unchanged. -/
theorem C7_chargeLimitV_concrete (s : Regs) :
    (setChargeLimitV s 4.2).1 = true
    ∧ setChargeLimitV_raw 4.2 = 420
    ∧ bitsRead (readReg16 (setChargeLimitV s 4.2).2
        BQ25798_REG_CHARGE_VOLTAGE_LIMIT) 11 0 = 420
    ∧ getChargeLimitV (setChargeLimitV s 4.2).2 = 4.2
    ∧ (setChargeLimitV s 2.0).1 = false
    ∧ (setChargeLimitV s 2.0).2 = s := by
  have hraw : setChargeLimitV_raw 4.2 = 420 := by
    unfold setChargeLimitV_raw truncQ
    rw [show (4.2 : ℚ) / 0.01 = ((420 : ℕ) : ℚ) by norm_num, Int.floor_natCast]
    rfl
  have hset : (setChargeLimitV s 4.2).2
      = writeReg16 s BQ25798_REG_CHARGE_VOLTAGE_LIMIT
          (bitsWrite (readReg16 s BQ25798_REG_CHARGE_VOLTAGE_LIMIT) 11 0
            (setChargeLimitV_raw 4.2)) := by
    unfold setChargeLimitV
    rw [if_neg (by norm_num)]
  have hfield :
      bitsRead (readReg16 (setChargeLimitV s 4.2).2
        BQ25798_REG_CHARGE_VOLTAGE_LIMIT) 11 0 = 420 := by
    rw [hset, readReg16_after_field_write s _ 11 0 _ (by norm_num),
      bitsRead_bitsWrite, hraw]
    norm_num
  refine ⟨?_, hraw, hfield, ?_, ?_, ?_⟩
  · unfold setChargeLimitV
    rw [if_neg (by norm_num)]
  · unfold getChargeLimitV
    rw [hfield]
    norm_num
  · unfold setChargeLimitV
    rw [if_pos (by norm_num)]
  · unfold setChargeLimitV
    rw [if_pos (by norm_num)]

/-- The defensive clamp keeps any value below its ceiling. -/
theorem clamp_le (r m : Nat) : (if r > m then m else r) ≤ m := by
  split <;> omega

/-- C8: for every setter input, the raw value written to the bit-field
lies in `[0, rawMax]` with `rawMax = 2^bitWidth - 1` (63 for the 6-bit
minimum-system-voltage and precharge fields, 2047 for the 11-bit
charge-voltage and OTG-voltage fields, 511 for the 9-bit current field,
255 for the 8-bit input-voltage field), guaranteed by the defensive clamp
applied after range validation; the lower bound holds since raw values
are nonnegative machine integers. -/
theorem C8_raw_value_clamped (v : ℚ) :
    setMinSystemV_raw v ≤ 63
    ∧ setChargeLimitV_raw v ≤ 2047
    ∧ setChargeLimitA_raw v ≤ 511
    ∧ setInputLimitV_raw v ≤ 255
    ∧ setOTGV_raw v ≤ 2047
    ∧ setPrechargeLimitA_raw v ≤ 63 :=
  ⟨clamp_le _ _, clamp_le _ _, clamp_le _ _, clamp_le _ _, clamp_le _ _,
    clamp_le _ _⟩

/-- C9: `reset` writes 1 to the single self-clearing register-reset bit
(offset 6 of the termination-control register), touches no other register
address, and returns true for every device state; the model has no
bus-failure path, matching the code, which never checks the transaction
outcome. -/
theorem C9_reset_always_true (s : Regs) :
    (reset s).1 = true
    ∧ bitsRead (readReg8 (reset s).2 BQ25798_REG_TERMINATION_CONTROL) 1 6 = 1
    ∧ (∀ a, a ≠ BQ25798_REG_TERMINATION_CONTROL → (reset s).2 a = s a) := by
  refine ⟨rfl, ?_, ?_⟩
  · show bitsRead (readReg8 (writeReg8 s BQ25798_REG_TERMINATION_CONTROL
      (bitsWrite (readReg8 s BQ25798_REG_TERMINATION_CONTROL) 1 6 1))
        BQ25798_REG_TERMINATION_CONTROL) 1 6 = 1
    rw [readReg8_after_field_write s _ 1 6 1 (by norm_num), bitsRead_bitsWrite]
    norm_num
  · intro a ha
    exact writeReg8_ne s _ a _ ha

/-- Witness for C9 at the all-zero state and an untouched address. -/
theorem C9_reset_always_true_witness :
    (reset regsZero).1 = true ∧ (reset regsZero).2 5 = regsZero 5 := by
  have h := C9_reset_always_true regsZero
  exact ⟨h.1, h.2.2 5 (by decide)⟩

/-- C10: the getter decodes the raw field without clamping to the
documented physical range: for every raw value `r ≤ 63` stored in the
minimal-system-voltage field, `getMinSystemV` returns `r * 0.25 + 2.5`,
which for `r > 54` is strictly greater than the 16.0 V maximum accepted
by `setMinSystemV`; in particular at raw 63 the getter's value is
rejected by the setter. -/
theorem C10_getter_no_clamp (s : Regs) (r : Nat) :
    (r ≤ 63 →
      getMinSystemV (writeReg8 s BQ25798_REG_MINIMAL_SYSTEM_VOLTAGE r)
        = (r : ℚ) * 0.25 + 2.5)
    ∧ (54 < r → r ≤ 63 →
      (16.0 : ℚ) < getMinSystemV (writeReg8 s BQ25798_REG_MINIMAL_SYSTEM_VOLTAGE r))
    ∧ (setMinSystemV s
        (getMinSystemV (writeReg8 s BQ25798_REG_MINIMAL_SYSTEM_VOLTAGE 63))).1
      = false := by
  have hval : ∀ m : Nat, m ≤ 63 →
      getMinSystemV (writeReg8 s BQ25798_REG_MINIMAL_SYSTEM_VOLTAGE m)
        = (m : ℚ) * 0.25 + 2.5 := by
    intro m hm
    unfold getMinSystemV
    rw [readReg8_writeReg8_same]
    have hb : bitsRead (m % 256) 6 0 = m := by
      unfold bitsRead
      omega
    rw [hb]
  refine ⟨hval r, ?_, ?_⟩
  · intro h54 h63
    rw [hval r h63]
    have hc : (54 : ℚ) < (r : ℚ) := by exact_mod_cast h54
    linarith
  · rw [hval 63 (by norm_num)]
    unfold setMinSystemV
    rw [if_pos (Or.inr (by norm_num))]

/-- Witness for C10 at raw value 60 (and 63 for the rejection). -/
theorem C10_getter_no_clamp_witness :
    getMinSystemV (writeReg8 regsZero BQ25798_REG_MINIMAL_SYSTEM_VOLTAGE 60)
      = (60 : ℚ) * 0.25 + 2.5
    ∧ (16.0 : ℚ)
      < getMinSystemV (writeReg8 regsZero BQ25798_REG_MINIMAL_SYSTEM_VOLTAGE 60)
    ∧ (setMinSystemV regsZero
        (getMinSystemV (writeReg8 regsZero BQ25798_REG_MINIMAL_SYSTEM_VOLTAGE 63))).1
      = false := by
  have h := C10_getter_no_clamp regsZero 60
  exact ⟨h.1 (by norm_num), h.2.1 (by norm_num) (by norm_num), h.2.2⟩

end BQ25798
